import Mathlib

/-!
Verification of the Grad-CAM explainer service (`src/api/app.py`).

The development shallowly embeds the numeric core of the service:
the Grad-CAM class-activation-map builder (`GradCAM.__call__`, lines 64-84),
the heatmap overlay renderer (`get_heatmap_on_image`, lines 93-100),
the per-request pipeline (`process_image`, lines 123-151) and the
HTTP endpoint wrapper (`gradcam_endpoint`, lines 156-169).

Tensors are modelled as total functions on `Fin`-indexed grids with
rational entries; file paths as lists of characters; the fallible parts
(image loading, gradient capture) as `Option`/`Except` values; and the
side effects of a request (file reads/writes, forward/backward passes)
as explicit event logs returned by the embedded pipeline.
-/

namespace GradCamApp

/-! ## Tensors and the class-activation-map builder (GradCAM.__call__, lines 76-84) -/

/-- Activation / gradient tensor of shape `[1, C, h, w]` (the leading batch
dimension of size 1 is dropped). -/
abbrev T3 (C h w : ℕ) := Fin C → Fin h → Fin w → ℚ

/-- Single-channel spatial map of shape `[h, w]`. -/
abbrev CamMap (h w : ℕ) := Fin h → Fin w → ℚ

/-- The `1e-8` stabiliser added to the denominator at line 82. -/
def eps : ℚ := 1 / 100000000

/-- Line 76: `weights = torch.mean(self.gradients, dim=(2, 3), keepdim=True)` —
the spatial mean of the gradient tensor over channel `c`. -/
def channelWeight {C h w : ℕ} (G : T3 C h w) (c : Fin C) : ℚ :=
  (∑ y, ∑ x, G c y x) / ((h : ℚ) * (w : ℚ))

/-- Line 77: `grad_cam_map = torch.sum(weights * self.activations, dim=1, keepdim=True)` —
the channel-weighted sum of the activations. -/
def gradCamRaw {C h w : ℕ} (A G : T3 C h w) : CamMap h w :=
  fun y x => ∑ c, channelWeight G c * A c y x

/-- Line 78: `grad_cam_map = F.relu(grad_cam_map)` — element-wise rectification. -/
def gradCamRelu {C h w : ℕ} (A G : T3 C h w) : CamMap h w :=
  fun y x => max (gradCamRaw A G y x) 0

/-- Spatial minimum of a map, as computed by `tensor.min()`.  On an empty grid
(`h = 0` or `w = 0`) torch raises; the embedding returns `0` there, and every
theorem below assumes a nonempty grid. -/
def mapMin {h w : ℕ} (m : CamMap h w) : ℚ :=
  if hne : (Finset.univ : Finset (Fin h × Fin w)).Nonempty then
    Finset.univ.inf' hne (fun p => m p.1 p.2)
  else 0

/-- Spatial maximum of a map, as computed by `tensor.max()`. -/
def mapMax {h w : ℕ} (m : CamMap h w) : ℚ :=
  if hne : (Finset.univ : Finset (Fin h × Fin w)).Nonempty then
    Finset.univ.sup' hne (fun p => m p.1 p.2)
  else 0

/-- Line 81: `grad_cam_map = grad_cam_map - grad_cam_map.min()`. -/
def gradCamShifted {C h w : ℕ} (A G : T3 C h w) : CamMap h w :=
  fun y x => gradCamRelu A G y x - mapMin (gradCamRelu A G)

/-- Line 82: `grad_cam_map = grad_cam_map / (grad_cam_map.max() + 1e-8)` —
the normalised class-activation map produced by `GradCAM.__call__` from the
captured activation tensor `A` and gradient tensor `G`. -/
def camBuild {C h w : ℕ} (A G : T3 C h w) : CamMap h w :=
  fun y x => gradCamShifted A G y x / (mapMax (gradCamShifted A G) + eps)

/-! ### The map builder as the specification words it (for the refinement claim)

`specCam` is written from the specification text of §4.3, *not* from the
code: `M = (raw - min(raw)) / (max(raw) - min(raw) + ε)` applied to the
rectified raw map.  The code instead divides the already-shifted map by
`(shifted.max() + 1e-8)`; the refinement theorem shows the two agree. -/

/-- Spec §4.3 step 1: per-channel importance weight `w_c` = spatial mean of `G`. -/
def specWeight {C h w : ℕ} (G : T3 C h w) (c : Fin C) : ℚ :=
  (∑ y, ∑ x, G c y x) / ((h : ℚ) * (w : ℚ))

/-- Spec §4.3 step 2: `raw[y,x] = Σ_c w_c * A[c,y,x]`. -/
def specRaw {C h w : ℕ} (A G : T3 C h w) : CamMap h w :=
  fun y x => ∑ c, specWeight G c * A c y x

/-- Spec §4.3 step 3: rectification `raw = max(raw, 0)`. -/
def specRect {C h w : ℕ} (A G : T3 C h w) : CamMap h w :=
  fun y x => max (specRaw A G y x) 0

/-- Spec §4.3 step 4: `M = (raw - min(raw)) / (max(raw) - min(raw) + ε)`,
applied to the rectified map. -/
def specCam {C h w : ℕ} (A G : T3 C h w) : CamMap h w :=
  fun y x =>
    (specRect A G y x - mapMin (specRect A G)) /
      (mapMax (specRect A G) - mapMin (specRect A G) + eps)

/-! ### Concrete tensors used to instantiate the theorems -/

/-- One-channel 1×1 tensor holding the value 1. -/
def tOnes : T3 1 1 1 := fun _ _ _ => 1

/-- One-channel 1×1 tensor holding the value 0. -/
def tZeros : T3 1 1 1 := fun _ _ _ => 0

/-! ## File paths (lines 124, 142-148)

Paths are lists of characters.  `pySplit` is Python's `str.split("/")`,
`posixJoin` is `os.path.join` for two components on a POSIX system. -/

abbrev Path := List Char

/-- Python `s.split("/")` on a character list: splits at every `'/'`,
keeping empty components; the result is never empty. -/
def pySplit : Path → List Path
  | [] => [[]]
  | c :: rest =>
    if c = '/' then [] :: pySplit rest
    else
      match pySplit rest with
      | [] => [[c]]
      | s :: ss => (c :: s) :: ss

/-- Whether a path is absolute, i.e. `startswith("/")`. -/
def isAbs (p : Path) : Bool := p.head? == some '/'

/-- Whether a path ends with the separator. -/
def endsSlash (a : Path) : Bool := a.getLast? == some '/'

/-- POSIX `os.path.join(a, b)`: an absolute `b` discards `a`; otherwise the
separator is inserted unless `a` is empty or already ends with it. -/
def posixJoin (a b : Path) : Path :=
  if isAbs b then b
  else if a.isEmpty || endsSlash a then a ++ b
  else a ++ '/' :: b

/-- The literal `'..'` component. -/
def dotdot : Path := ['.', '.']

/-- Line 124: `image_path = os.path.join('..', image_path)`. -/
def joinParent (p : Path) : Path := posixJoin dotdot p

/-- The `'output'` directory constant (line 142). -/
def outputDir : Path := ("output").data

/-- Line 143: `file_class = image_path.split("/")[-2]` (on the joined path).
Python's `[-2]` is index `len - 2`; the joined path always splits into at
least two components, so the default never fires. -/
def fileClass (p : Path) : Path :=
  (pySplit (joinParent p)).getD ((pySplit (joinParent p)).length - 2) []

/-- Line 144: `file_name = image_path.split("/")[-1]` (on the joined path). -/
def fileName (p : Path) : Path := (pySplit (joinParent p)).getLastD []

/-- Line 147: `output_filename = f"{file_class}_{file_name}"`. -/
def outputFilename (p : Path) : Path := fileClass p ++ '_' :: fileName p

/-- Line 148: `output_filepath = os.path.join(output_dir, output_filename)`. -/
def outputFilepath (p : Path) : Path := posixJoin outputDir (outputFilename p)

/-! ## Images and the overlay renderer (get_heatmap_on_image, lines 93-100) -/

/-- An RGB pixel with rational channel values. -/
abbrev RGB := ℚ × ℚ × ℚ

/-- A decoded full-colour image: height, width and a pixel function. -/
structure OImage where
  H : ℕ
  W : ℕ
  pix : ℕ → ℕ → RGB

/-- A single-channel image (the numpy heatmap array). -/
structure HMap where
  H : ℕ
  W : ℕ
  v : ℕ → ℕ → ℚ

/-- Line 83: `.squeeze().cpu().numpy()` — the `[1,1,h,w]` map as a 2-D array. -/
def toHMap {h w : ℕ} (m : CamMap h w) : HMap :=
  ⟨h, w, fun y x =>
    if hy : y < h then (if hx : x < w then m ⟨y, hy⟩ ⟨x, hx⟩ else 0) else 0⟩

/-- Clamp an integer index into `[0, n-1]` (border replication when sampling). -/
def clampIdx (n : ℕ) (i : ℤ) : ℕ := (max 0 (min i ((n : ℤ) - 1))).toNat

/-- Bilinear sample of a single-channel image at fractional source
coordinates, with border clamping. -/
def sampleBilinear (m : HMap) (fy fx : ℚ) : ℚ :=
  let y0 : ℤ := ⌊fy⌋
  let x0 : ℤ := ⌊fx⌋
  let dy : ℚ := fy - (y0 : ℚ)
  let dx : ℚ := fx - (x0 : ℚ)
  let v00 := m.v (clampIdx m.H y0) (clampIdx m.W x0)
  let v01 := m.v (clampIdx m.H y0) (clampIdx m.W (x0 + 1))
  let v10 := m.v (clampIdx m.H (y0 + 1)) (clampIdx m.W x0)
  let v11 := m.v (clampIdx m.H (y0 + 1)) (clampIdx m.W (x0 + 1))
  (1 - dy) * ((1 - dx) * v00 + dx * v01) + dy * ((1 - dx) * v10 + dx * v11)

/-- Line 95: `cv2.resize(heatmap, (W, H))` with the default smooth
(INTER_LINEAR) interpolation and half-pixel-centre source mapping;
`dsize` is `(width, height)` as in OpenCV. -/
def cvResize (m : HMap) (dsize : ℕ × ℕ) : HMap :=
  ⟨dsize.2, dsize.1, fun y x =>
    sampleBilinear m
      (((y : ℚ) + 1 / 2) * ((m.H : ℚ) / (dsize.2 : ℚ)) - 1 / 2)
      (((x : ℚ) + 1 / 2) * ((m.W : ℚ) / (dsize.1 : ℚ)) - 1 / 2)⟩

/-- Integer truncation toward zero, as in numpy's float-to-integer cast. -/
def truncToZero (q : ℚ) : ℤ := if 0 ≤ q then ⌊q⌋ else -⌊-q⌋

/-- Line 96: `np.uint8(255 * heatmap)` applied to one value — truncate toward
zero and wrap modulo 256. -/
def pyUint8 (q : ℚ) : ℕ := ((truncToZero q) % 256).toNat

/-- Clamp a channel value into `[0, 255]`. -/
def clamp255 (q : ℚ) : ℚ := max 0 (min 255 q)

/-- Line 97: `cv2.applyColorMap(·, cv2.COLORMAP_JET)` for one 8-bit value,
in OpenCV's BGR channel order.  Models the library's fixed low→cool /
high→warm ramp; the exact table entries are immaterial to the claims. -/
def jetColorBGR (v : ℕ) : RGB :=
  (clamp255 (510 - 4 * (v : ℚ)),
   clamp255 (255 - |2 * (v : ℚ) - 255|),
   clamp255 (4 * (v : ℚ) - 510))

/-- Line 98: `cv2.cvtColor(·, cv2.COLOR_BGR2RGB)` on one pixel. -/
def bgr2rgb (c : RGB) : RGB := (c.2.2, c.2.1, c.1)

/-- OpenCV's saturating 8-bit cast with rounding (`saturate_cast<uchar>`);
half values modelled as rounding up, which is immaterial to the claims. -/
def satCast (q : ℚ) : ℕ := (max 0 (min ⌊q + 1 / 2⌋ 255)).toNat

/-- Line 99: `cv2.addWeighted(src1, a, src2, b, 0)` on one pixel pair. -/
def addWeightedPix (p1 : RGB) (a : ℚ) (p2 : RGB) (b : ℚ) : RGB :=
  ((satCast (p1.1 * a + p2.1 * b) : ℚ),
   (satCast (p1.2.1 * a + p2.2.1 * b) : ℚ),
   (satCast (p1.2.2 * a + p2.2.2 * b) : ℚ))

/-- Lines 93-100: `get_heatmap_on_image(original_image, heatmap, alpha)` —
resize the heatmap to the original image's dimensions, colorize with the JET
ramp (converted BGR→RGB), and alpha-blend over the original. -/
def heatmapOnImage (orig : OImage) (hm : HMap) (alpha : ℚ) : OImage :=
  let resized := cvResize hm (orig.W, orig.H)
  let colored : ℕ → ℕ → RGB := fun y x =>
    bgr2rgb (jetColorBGR (pyUint8 (255 * resized.v y x)))
  { H := orig.H, W := orig.W,
    pix := fun y x => addWeightedPix (orig.pix y x) (1 - alpha) (colored y x) alpha }

/-! ## The GradCAM invocation and the per-request pipeline

The network itself is abstracted as deterministic functions of the
preprocessed input (the model is in `eval()` mode, so dropout is the
identity and repeated forward passes agree):

* `logits` — the `[1,2]` output of `SimpleCNN.forward`;
* `act` — the output of the designated layer `conv3`, recorded unmodified
  by the forward hook (line 55);
* `grad` — the gradient reaching `conv3`'s output during the backward pass
  for a given one-hot target class, recorded by the backward hook (line 58);
  `none` models a backward pass that never reaches the designated layer,
  in which case the hook does not fire and the capture stays as it was. -/

/-- The environment a request runs against: image loading (`Image.open`,
line 125, `none` = unreachable/undecodable), the deterministic preprocessing
transform (lines 110-115), and the network with its designated capture layer. -/
structure Env (α : Type) (C h w : ℕ) where
  readImage : Path → Option OImage
  preprocess : OImage → α
  logits : α → Fin 2 → ℚ
  act : α → T3 C h w
  grad : α → Fin 2 → Option (T3 C h w)

/-- The GradCAM capture state (`self.activations` / `self.gradients`,
lines 48-49); a freshly constructed `GradCAM` holds `none` in both. -/
structure Capture (C h w : ℕ) where
  activations : Option (T3 C h w)
  gradients : Option (T3 C h w)

/-- `torch.argmax(output, dim=1)` for a `[1,2]` logit vector: the first
index attaining the maximum (ties resolve to the lower index).  Every call
site uses this same function, so the claims do not depend on the tie rule. -/
def pyArgmax (f : Fin 2 → ℚ) : Fin 2 := if f 0 < f 1 then 1 else 0

/-- The error raised at line 76 when `self.gradients` is still `None`
(`torch.mean` of `None` raises a `TypeError`). -/
inductive GCErr
  | typeError
deriving DecidableEq

/-- A forward or backward pass of the network; a backward pass carries the
single class index its one-hot seed targets (lines 70-74). -/
inductive Ev
  | forward
  | backward (t : Fin 2)
deriving DecidableEq

/-- Whether an event is a forward pass of the network. -/
def isForwardEv : Ev → Bool
  | Ev.forward => true
  | _ => false

/-- Whether an event is a backward pass of the network. -/
def isBackwardEv : Ev → Bool
  | Ev.backward _ => true
  | _ => false

/-- Everything one `GradCAM.__call__` produces: the capture state after the
call, the forward output, the resolved target class, the map (or the raised
error), and the passes it executed. -/
structure GCOut (C h w : ℕ) where
  capture : Capture C h w
  output : Fin 2 → ℚ
  target : Fin 2
  cam : Except GCErr (CamMap h w)
  events : List Ev

/-- `GradCAM.__call__(input_tensor, target_class)` (lines 64-84): one forward
pass (the forward hook records `conv3`'s activations), target selection
(`output.argmax` when `target_class is None`), one backward pass seeded with
the one-hot target (the backward hook records the gradient if the backward
pass reaches the designated layer), then the map computation of lines 76-82
from whatever the capture state holds. -/
def gradCamCall {α : Type} {C h w : ℕ} (E : Env α C h w) (st : Capture C h w)
    (x : α) (targetClass : Option (Fin 2)) : GCOut C h w :=
  let output := E.logits x
  let st1 : Capture C h w := { st with activations := some (E.act x) }
  let target := targetClass.getD (pyArgmax output)
  let st2 : Capture C h w :=
    match E.grad x target with
    | some g => { st1 with gradients := some g }
    | none => st1
  let cam : Except GCErr (CamMap h w) :=
    match st2.gradients, st2.activations with
    | some G, some A => Except.ok (camBuild A G)
    | _, _ => Except.error GCErr.typeError
  ⟨st2, output, target, cam, [Ev.forward, Ev.backward target]⟩

/-- The classification labels: the fixed mapping `{0: "ai", 1: "human"}`
(line 118) together with the `"Unknown"` default of `classes.get` (line 151). -/
inductive Label
  | ai
  | human
  | unknown
deriving DecidableEq

/-- `classes.get(predicted_class, "Unknown")` (lines 118, 151). -/
def classesMap (n : ℕ) : Label :=
  if n = 0 then Label.ai else if n = 1 then Label.human else Label.unknown

/-- Per-request errors: `Image.open` failing on an unresolvable or
undecodable path, and the `TypeError` from an unset gradient capture.
Both propagate as Python exceptions out of `process_image`. -/
inductive PErr
  | inputError
  | computationError
deriving DecidableEq

/-- Everything one `process_image` call does: the returned value (or the
exception), the paths it opened, the files it wrote, the forward/backward
passes it ran, and the GradCAM invocation record when one happened. -/
structure PRes (C h w : ℕ) where
  res : Except PErr (Label × Path)
  reads : List Path
  writes : List (Path × OImage)
  events : List Ev
  gc : Option (GCOut C h w)

/-- `process_image(image_path)` (lines 123-151): join the path with `'..'`,
open and preprocess the image, run a prediction-only forward pass under
`no_grad`, take the argmax as the predicted class, construct a fresh
`GradCAM` (empty capture) on `conv3` and call it with the predicted class as
the explicit target, render the overlay, and write it to
`output/{file_class}_{file_name}` derived from the joined path. -/
def processImage {α : Type} {C h w : ℕ} (E : Env α C h w) (p : Path) : PRes C h w :=
  let joined := joinParent p
  match E.readImage joined with
  | none =>
    { res := Except.error PErr.inputError, reads := [joined], writes := [],
      events := [], gc := none }
  | some img =>
    let x := E.preprocess img
    let output := E.logits x
    let predicted := pyArgmax output
    let g := gradCamCall E ⟨none, none⟩ x (some predicted)
    match g.cam with
    | Except.error _ =>
      { res := Except.error PErr.computationError, reads := [joined], writes := [],
        events := Ev.forward :: g.events, gc := some g }
    | Except.ok cam =>
      let overlay := heatmapOnImage img (toHMap cam) (2 / 5)
      { res := Except.ok (classesMap predicted.val, outputFilepath p),
        reads := [joined],
        writes := [(outputFilepath p, overlay)],
        events := Ev.forward :: g.events,
        gc := some g }

/-- The HTTP responses of `gradcam_endpoint` (lines 156-169): the 200 JSON
payload, the 400 missing-parameter response, and the 500 response built from
the caught exception. -/
inductive Resp
  | ok (classification : Label) (gradcamImage : Path)
  | missingParam
  | serverError (e : PErr)
deriving DecidableEq

/-- What one request to the endpoint produces: the response and the files
written while serving it. -/
structure EndpointRes where
  resp : Resp
  writes : List (Path × OImage)

/-- `gradcam_endpoint` (lines 156-169): a missing or empty `image_url`
parameter (Python's falsiness test) yields 400; otherwise `process_image`
runs, a raised exception is converted to the 500 response, and a normal
return to the 200 payload. -/
def gradcamEndpoint {α : Type} {C h w : ℕ} (E : Env α C h w)
    (imageUrl : Option Path) : EndpointRes :=
  match imageUrl with
  | none => ⟨Resp.missingParam, []⟩
  | some p =>
    if p.isEmpty then ⟨Resp.missingParam, []⟩
    else
      let r := processImage E p
      match r.res with
      | Except.ok (label, outPath) => ⟨Resp.ok label outPath, r.writes⟩
      | Except.error e => ⟨Resp.serverError e, r.writes⟩

/-! ### Concrete request environments used to instantiate the theorems -/

/-- A concrete 4×4 all-black test image. -/
def imgA : OImage := ⟨4, 4, fun _ _ => (0, 0, 0)⟩

/-- An environment whose image loading always succeeds and whose backward
pass reaches the designated layer. -/
def envOk : Env Unit 1 1 1 :=
  { readImage := fun _ => some imgA
    preprocess := fun _ => ()
    logits := fun _ _ => 0
    act := fun _ => tOnes
    grad := fun _ _ => some tOnes }

/-- An environment whose backward pass never reaches the designated layer:
the gradient capture stays unset. -/
def envNoGrad : Env Unit 1 1 1 :=
  { envOk with grad := fun _ _ => none }

/-- An environment in which no image path resolves. -/
def envNoImg : Env Unit 1 1 1 :=
  { envOk with readImage := fun _ => none }

/-- The relative request path `images/human/50.jpg` from the endpoint's
own documentation (line 158). -/
def pRel : Path := ("images/human/50.jpg").data

/-- An absolute request path. -/
def pAbs : Path := ("/data/images/human/50.jpg").data

/-! ### Basic facts about `mapMin` / `mapMax` on nonempty grids -/

lemma univ_nonempty_of_pos {h w : ℕ} (hh : 0 < h) (hw : 0 < w) :
    (Finset.univ : Finset (Fin h × Fin w)).Nonempty :=
  ⟨(⟨0, hh⟩, ⟨0, hw⟩), Finset.mem_univ _⟩

lemma mapMin_le {h w : ℕ} (hh : 0 < h) (hw : 0 < w) (m : CamMap h w)
    (y : Fin h) (x : Fin w) : mapMin m ≤ m y x := by
  have hne := univ_nonempty_of_pos hh hw
  rw [mapMin, dif_pos hne]
  exact Finset.inf'_le _ (Finset.mem_univ (y, x))

lemma le_mapMax {h w : ℕ} (hh : 0 < h) (hw : 0 < w) (m : CamMap h w)
    (y : Fin h) (x : Fin w) : m y x ≤ mapMax m := by
  have hne := univ_nonempty_of_pos hh hw
  rw [mapMax, dif_pos hne]
  exact Finset.le_sup' (fun p : Fin h × Fin w => m p.1 p.2) (Finset.mem_univ (y, x))

lemma mapMax_sub_const {h w : ℕ} (hh : 0 < h) (hw : 0 < w)
    (m : CamMap h w) (c : ℚ) :
    mapMax (fun y x => m y x - c) = mapMax m - c := by
  have hne := univ_nonempty_of_pos hh hw
  rw [mapMax, mapMax, dif_pos hne, dif_pos hne]
  have h := Finset.comp_sup'_eq_sup'_comp (f := fun p : Fin h × Fin w => m p.1 p.2) hne
    (fun q : ℚ => q - c) (fun a b => by simpa using (max_sub_sub_right a b c).symm)
  simpa [Function.comp] using h.symm

lemma le_mapMin {h w : ℕ} (hh : 0 < h) (hw : 0 < w) (m : CamMap h w)
    (c : ℚ) (hc : ∀ y x, c ≤ m y x) : c ≤ mapMin m := by
  have hne := univ_nonempty_of_pos hh hw
  rw [mapMin, dif_pos hne]
  exact Finset.le_inf' hne _ (fun p _ => hc p.1 p.2)

lemma eps_pos : 0 < eps := by norm_num [eps]

/-! ### Facts about path splitting and joining -/

lemma pySplit_ne_nil (l : Path) : pySplit l ≠ [] := by
  cases l with
  | nil => simp [pySplit]
  | cons c rest =>
    rw [pySplit]
    by_cases hc : c = '/'
    · simp [hc]
    · simp only [hc, if_false]
      cases pySplit rest <;> simp

lemma pySplit_cons_slash (rest : Path) : pySplit ('/' :: rest) = [] :: pySplit rest := by
  rw [pySplit]
  simp

lemma pySplit_cons_ne {c : Char} (hc : ¬ c = '/') (rest : Path) :
    pySplit (c :: rest) =
      match pySplit rest with
      | [] => [[c]]
      | s :: ss => (c :: s) :: ss := by
  rw [pySplit]
  simp [hc]

lemma two_le_length_pySplit {l : Path} (h : '/' ∈ l) : 2 ≤ (pySplit l).length := by
  induction l with
  | nil => simp at h
  | cons c rest ih =>
    by_cases hc : c = '/'
    · subst hc
      rw [pySplit_cons_slash]
      have hne := pySplit_ne_nil rest
      have : 1 ≤ (pySplit rest).length := by
        cases hps : pySplit rest with
        | nil => exact absurd hps hne
        | cons s ss => simp
      simpa using Nat.succ_le_succ this
    · have hmem : '/' ∈ rest := by
        rcases List.mem_cons.1 h with h1 | h1
        · exact absurd h1.symm hc
        · exact h1
      have h2 := ih hmem
      rw [pySplit_cons_ne hc]
      cases hps : pySplit rest with
      | nil => exact absurd hps (pySplit_ne_nil rest)
      | cons s ss =>
        rw [hps] at h2
        simpa using h2

lemma pySplit_dotdotslash (p : Path) : pySplit ('.' :: '.' :: '/' :: p) = dotdot :: pySplit p := by
  rw [pySplit_cons_ne (by decide), pySplit_cons_ne (by decide), pySplit_cons_slash]
  rfl

lemma joinParent_rel {p : Path} (h : isAbs p = false) :
    joinParent p = '.' :: '.' :: '/' :: p := by
  rw [joinParent, posixJoin, h]
  simp [dotdot, endsSlash]

lemma joinParent_abs {p : Path} (h : isAbs p = true) : joinParent p = p := by
  rw [joinParent, posixJoin, h]
  simp

lemma abs_head {p : Path} (h : isAbs p = true) : ∃ rest, p = '/' :: rest := by
  cases p with
  | nil => simp [isAbs] at h
  | cons c rest =>
    rw [isAbs] at h
    simp at h
    exact ⟨rest, by rw [h]⟩

lemma slash_mem_joinParent (p : Path) : '/' ∈ joinParent p := by
  cases habs : isAbs p
  · rw [joinParent_rel habs]
    simp
  · rw [joinParent_abs habs]
    obtain ⟨rest, hrest⟩ := abs_head habs
    rw [hrest]
    simp

lemma two_le_length_pySplit_joinParent (p : Path) :
    2 ≤ (pySplit (joinParent p)).length :=
  two_le_length_pySplit (slash_mem_joinParent p)

lemma pySplit_joinParent_rel {p : Path} (h : isAbs p = false) :
    pySplit (joinParent p) = dotdot :: pySplit p := by
  rw [joinParent_rel h, pySplit_dotdotslash]

/-! ### Reductions of `gradCamCall` and `processImage` under fixed hypotheses -/

lemma gradCamCall_grad_some {α : Type} {C h w : ℕ} (E : Env α C h w)
    (st : Capture C h w) (x : α) (t : Fin 2) (G : T3 C h w)
    (hG : E.grad x t = some G) :
    gradCamCall E st x (some t) =
      ⟨⟨some (E.act x), some G⟩, E.logits x, t,
        Except.ok (camBuild (E.act x) G), [Ev.forward, Ev.backward t]⟩ := by
  rw [gradCamCall]
  simp [hG]

lemma gradCamCall_grad_none {α : Type} {C h w : ℕ} (E : Env α C h w)
    (x : α) (t : Fin 2)
    (hG : E.grad x t = none) :
    gradCamCall E ⟨none, none⟩ x (some t) =
      ⟨⟨some (E.act x), none⟩, E.logits x, t,
        Except.error GCErr.typeError, [Ev.forward, Ev.backward t]⟩ := by
  rw [gradCamCall]
  simp [hG]

lemma processImage_read_none {α : Type} {C h w : ℕ} (E : Env α C h w) (p : Path)
    (hread : E.readImage (joinParent p) = none) :
    processImage E p =
      { res := Except.error PErr.inputError, reads := [joinParent p], writes := [],
        events := [], gc := none } := by
  rw [processImage, hread]

lemma processImage_ok {α : Type} {C h w : ℕ} (E : Env α C h w) (p : Path)
    (img : OImage) (G : T3 C h w)
    (hread : E.readImage (joinParent p) = some img)
    (hG : E.grad (E.preprocess img) (pyArgmax (E.logits (E.preprocess img))) = some G) :
    processImage E p =
      { res := Except.ok
          (classesMap (pyArgmax (E.logits (E.preprocess img))).val, outputFilepath p),
        reads := [joinParent p],
        writes := [(outputFilepath p,
          heatmapOnImage img (toHMap (camBuild (E.act (E.preprocess img)) G)) (2 / 5))],
        events := [Ev.forward, Ev.forward,
          Ev.backward (pyArgmax (E.logits (E.preprocess img)))],
        gc := some (gradCamCall E ⟨none, none⟩ (E.preprocess img)
          (some (pyArgmax (E.logits (E.preprocess img))))) } := by
  rw [processImage, hread]
  simp only [gradCamCall_grad_some E ⟨none, none⟩ (E.preprocess img) _ G hG]

lemma processImage_grad_unset {α : Type} {C h w : ℕ} (E : Env α C h w) (p : Path)
    (img : OImage)
    (hread : E.readImage (joinParent p) = some img)
    (hG : E.grad (E.preprocess img) (pyArgmax (E.logits (E.preprocess img))) = none) :
    processImage E p =
      { res := Except.error PErr.computationError,
        reads := [joinParent p],
        writes := [],
        events := [Ev.forward, Ev.forward,
          Ev.backward (pyArgmax (E.logits (E.preprocess img)))],
        gc := some (gradCamCall E ⟨none, none⟩ (E.preprocess img)
          (some (pyArgmax (E.logits (E.preprocess img))))) } := by
  rw [processImage, hread]
  simp only [gradCamCall_grad_none E (E.preprocess img) _ hG]

/-! ## Claim theorems -/

/-- C1: the class-activation-map builder computes per-channel weights as the
spatial mean of the gradient, forms the raw map as the channel-weighted sum of
the activations, rectifies element-wise with `max(·,0)`, and normalizes as
`(raw - min raw) / (max raw - min raw + ε)` with the positive constant
`ε = 1e-8`: the code's normalization (which divides the already-shifted map by
its own maximum plus ε) coincides with that formula. -/
theorem claimC1_camBuild_matches_spec_formula {C h w : ℕ} (hh : 0 < h) (hw : 0 < w)
    (A G : T3 C h w) :
    0 < eps ∧ ∀ y x, camBuild A G y x = specCam A G y x := by
  refine ⟨eps_pos, fun y x => ?_⟩
  have h1 : mapMax (gradCamShifted A G)
      = mapMax (gradCamRelu A G) - mapMin (gradCamRelu A G) :=
    mapMax_sub_const hh hw (gradCamRelu A G) (mapMin (gradCamRelu A G))
  show gradCamShifted A G y x / (mapMax (gradCamShifted A G) + eps) = _
  rw [h1]
  rfl

/-- C1 witness: at the concrete one-channel 1×1 tensors `A = G = 1`, the
hypotheses `0 < h`, `0 < w` hold and the code map equals the spec map. -/
theorem claimC1_witness :
    (0 : ℕ) < 1 ∧ ∀ y x, camBuild tOnes tOnes y x = specCam tOnes tOnes y x :=
  ⟨by decide,
    (claimC1_camBuild_matches_spec_formula (by decide) (by decide) tOnes tOnes).2⟩

/-- C2: every value of the normalized class-activation map lies in `[0,1]`,
and when the rectified raw map is uniformly zero the normalized map is
uniformly zero (a valid result, not an error). -/
theorem claimC2_camBuild_values_in_unit_interval {C h w : ℕ} (hh : 0 < h) (hw : 0 < w)
    (A G : T3 C h w) :
    (∀ y x, 0 ≤ camBuild A G y x ∧ camBuild A G y x ≤ 1) ∧
    ((∀ y x, gradCamRelu A G y x = 0) → ∀ y x, camBuild A G y x = 0) := by
  have hnn : ∀ (y : Fin h) (x : Fin w), 0 ≤ gradCamShifted A G y x := fun y x =>
    sub_nonneg.2 (mapMin_le hh hw (gradCamRelu A G) y x)
  have hmx : 0 ≤ mapMax (gradCamShifted A G) :=
    le_trans (hnn ⟨0, hh⟩ ⟨0, hw⟩) (le_mapMax hh hw _ ⟨0, hh⟩ ⟨0, hw⟩)
  have hden : 0 < mapMax (gradCamShifted A G) + eps :=
    add_pos_of_nonneg_of_pos hmx eps_pos
  constructor
  · intro y x
    constructor
    · exact div_nonneg (hnn y x) hden.le
    · show gradCamShifted A G y x / (mapMax (gradCamShifted A G) + eps) ≤ 1
      rw [div_le_one hden]
      exact le_trans (le_mapMax hh hw _ y x) (le_add_of_nonneg_right eps_pos.le)
  · intro hz y x
    have hmin : mapMin (gradCamRelu A G) = 0 := by
      have hle : mapMin (gradCamRelu A G) ≤ 0 := by
        have := mapMin_le hh hw (gradCamRelu A G) ⟨0, hh⟩ ⟨0, hw⟩
        rw [hz ⟨0, hh⟩ ⟨0, hw⟩] at this
        exact this
      have hge : 0 ≤ mapMin (gradCamRelu A G) :=
        le_mapMin hh hw (gradCamRelu A G) 0 (fun y x => (hz y x).ge)
      exact le_antisymm hle hge
    show gradCamShifted A G y x / (mapMax (gradCamShifted A G) + eps) = 0
    have hsh : gradCamShifted A G y x = 0 := by
      show gradCamRelu A G y x - mapMin (gradCamRelu A G) = 0
      rw [hz y x, hmin, sub_zero]
    rw [hsh, zero_div]

/-- C2 witness: at the concrete one-channel 1×1 tensors `A = 1`, `G = 0`
(the all-zero-gradient degenerate case), the hypotheses hold, the map value
is in `[0,1]`, and the rectified raw map being uniformly zero forces the
normalized map to be uniformly zero. -/
theorem claimC2_witness :
    (0 : ℕ) < 1 ∧
      ((∀ y x, 0 ≤ camBuild tOnes tZeros y x ∧ camBuild tOnes tZeros y x ≤ 1) ∧
        ((∀ y x, gradCamRelu tOnes tZeros y x = 0) →
          ∀ y x, camBuild tOnes tZeros y x = 0)) :=
  ⟨by decide,
    claimC2_camBuild_values_in_unit_interval (by decide) (by decide) tOnes tZeros⟩

/-- Reduction of the endpoint on a present, nonempty `image_url`. -/
lemma gradcamEndpoint_some {α : Type} {C h w : ℕ} (E : Env α C h w) {p : Path}
    (hp : p ≠ []) :
    gradcamEndpoint E (some p) =
      match (processImage E p).res with
      | Except.ok (label, outPath) => ⟨Resp.ok label outPath, (processImage E p).writes⟩
      | Except.error e => ⟨Resp.serverError e, (processImage E p).writes⟩ := by
  have hne : p.isEmpty = false := by
    cases p with
    | nil => exact absurd rfl hp
    | cons a l => rfl
  rw [gradcamEndpoint, hne]
  simp

/-- C3: the label returned by the pipeline is the one the class mapping
assigns to the top-1 argmax of the network's logits on the preprocessed
input; the pipeline's GradCAM invocation targets exactly that argmax; and a
GradCAM invocation with no explicit target class targets the argmax of its
own forward output. -/
theorem claimC3_predicted_class_consistency {α : Type} {C h w : ℕ} (E : Env α C h w)
    (p : Path) (img : OImage)
    (hread : E.readImage (joinParent p) = some img) :
    (∀ lbl outp, (processImage E p).res = Except.ok (lbl, outp) →
      lbl = classesMap (pyArgmax (E.logits (E.preprocess img))).val) ∧
    (∃ g, (processImage E p).gc = some g ∧
      g.target = pyArgmax (E.logits (E.preprocess img))) ∧
    (∀ (st : Capture C h w) (x : α),
      (gradCamCall E st x none).target = pyArgmax (E.logits x)) := by
  refine ⟨?_, ?_, fun st x => rfl⟩
  · intro lbl outp hres
    cases hG : E.grad (E.preprocess img) (pyArgmax (E.logits (E.preprocess img))) with
    | none =>
      rw [processImage_grad_unset E p img hread hG] at hres
      exact absurd hres (by simp)
    | some G =>
      rw [processImage_ok E p img G hread hG] at hres
      simp at hres
      exact hres.1.symm
  · cases hG : E.grad (E.preprocess img) (pyArgmax (E.logits (E.preprocess img))) with
    | none =>
      refine ⟨gradCamCall E ⟨none, none⟩ (E.preprocess img)
        (some (pyArgmax (E.logits (E.preprocess img)))), ?_, rfl⟩
      rw [processImage_grad_unset E p img hread hG]
    | some G =>
      refine ⟨gradCamCall E ⟨none, none⟩ (E.preprocess img)
        (some (pyArgmax (E.logits (E.preprocess img)))), ?_, rfl⟩
      rw [processImage_ok E p img G hread hG]

/-- C3 witness: in the concrete environment `envOk` on the request path
`images/human/50.jpg` the hypothesis holds and the consistency properties
follow. -/
theorem claimC3_witness :
    envOk.readImage (joinParent pRel) = some imgA ∧
      ((∀ lbl outp, (processImage envOk pRel).res = Except.ok (lbl, outp) →
        lbl = classesMap (pyArgmax (envOk.logits (envOk.preprocess imgA))).val) ∧
      (∃ g, (processImage envOk pRel).gc = some g ∧
        g.target = pyArgmax (envOk.logits (envOk.preprocess imgA))) ∧
      (∀ (st : Capture 1 1 1) (x : Unit),
        (gradCamCall envOk st x none).target = pyArgmax (envOk.logits x))) :=
  ⟨rfl, claimC3_predicted_class_consistency envOk pRel imgA rfl⟩

/-- C4 counterexample: in a concrete successful request, the number of
forward passes of the network is not one (the pipeline runs a prediction-only
forward pass and then GradCAM's instrumented forward pass, i.e. two). -/
theorem claimC4_counterexample :
    ¬ ((processImage envOk pRel).events.countP isForwardEv = 1) := by decide

/-- C4 amended: exactly **two** forward passes and exactly one backward pass
occur per successful explanation request — a prediction-only forward followed
by the single instrumented forward/backward pair targeting one class index —
and the captured activation and gradient tensors both come from that
instrumented pair (the activation from its forward pass on the preprocessed
input, the gradient from its backward pass at the same target). -/
theorem claimC4_amended_two_forward_one_backward {α : Type} {C h w : ℕ}
    (E : Env α C h w) (p : Path) (img : OImage)
    (hread : E.readImage (joinParent p) = some img) :
    (processImage E p).events =
      [Ev.forward, Ev.forward, Ev.backward (pyArgmax (E.logits (E.preprocess img)))] ∧
    ∃ g, (processImage E p).gc = some g ∧
      g.events = [Ev.forward, Ev.backward g.target] ∧
      g.capture.activations = some (E.act (E.preprocess img)) ∧
      g.capture.gradients = E.grad (E.preprocess img) g.target := by
  cases hG : E.grad (E.preprocess img) (pyArgmax (E.logits (E.preprocess img))) with
  | none =>
    rw [processImage_grad_unset E p img hread hG,
      gradCamCall_grad_none E (E.preprocess img) _ hG]
    exact ⟨rfl, _, rfl, rfl, rfl, hG.symm⟩
  | some G =>
    rw [processImage_ok E p img G hread hG,
      gradCamCall_grad_some E ⟨none, none⟩ (E.preprocess img) _ G hG]
    exact ⟨rfl, _, rfl, rfl, rfl, hG.symm⟩

/-- C4 amended witness: the concrete successful request exhibits the
two-forward / one-backward trace with captures from the instrumented pair. -/
theorem claimC4_amended_witness :
    envOk.readImage (joinParent pRel) = some imgA ∧
      ((processImage envOk pRel).events =
        [Ev.forward, Ev.forward,
          Ev.backward (pyArgmax (envOk.logits (envOk.preprocess imgA)))] ∧
      ∃ g, (processImage envOk pRel).gc = some g ∧
        g.events = [Ev.forward, Ev.backward g.target] ∧
        g.capture.activations = some (envOk.act (envOk.preprocess imgA)) ∧
        g.capture.gradients = envOk.grad (envOk.preprocess imgA) g.target) :=
  ⟨rfl, claimC4_amended_two_forward_one_backward envOk pRel imgA rfl⟩

/-- C5: if the backward pass never reaches the designated capture layer
(`grad` yields nothing), the gradient capture of the request's fresh GradCAM
instance stays unset, the map computation raises instead of producing a map,
the request fails with a computation error, no file is written, and the
endpoint reports the error to the caller. -/
theorem claimC5_unset_gradient_capture_fails {α : Type} {C h w : ℕ}
    (E : Env α C h w) (p : Path) (img : OImage)
    (hp : p ≠ [])
    (hread : E.readImage (joinParent p) = some img)
    (hG : E.grad (E.preprocess img) (pyArgmax (E.logits (E.preprocess img))) = none) :
    (∃ g, (processImage E p).gc = some g ∧ g.capture.gradients = none ∧
      g.cam = Except.error GCErr.typeError) ∧
    (processImage E p).res = Except.error PErr.computationError ∧
    (processImage E p).writes = [] ∧
    (gradcamEndpoint E (some p)).resp = Resp.serverError PErr.computationError ∧
    (gradcamEndpoint E (some p)).writes = [] := by
  have hpi := processImage_grad_unset E p img hread hG
  have hgc := gradCamCall_grad_none E (E.preprocess img) _ hG
  refine ⟨⟨_, by rw [hpi], by rw [hgc], by rw [hgc]⟩, by rw [hpi], by rw [hpi], ?_, ?_⟩
  · rw [gradcamEndpoint_some E hp, hpi]
  · rw [gradcamEndpoint_some E hp, hpi]

/-- C5 witness: in the concrete environment whose backward pass never
reaches `conv3`, the request errors and writes nothing. -/
theorem claimC5_witness :
    pRel ≠ [] ∧
      envNoGrad.readImage (joinParent pRel) = some imgA ∧
      envNoGrad.grad (envNoGrad.preprocess imgA)
        (pyArgmax (envNoGrad.logits (envNoGrad.preprocess imgA))) = none ∧
      ((∃ g, (processImage envNoGrad pRel).gc = some g ∧
          g.capture.gradients = none ∧ g.cam = Except.error GCErr.typeError) ∧
        (processImage envNoGrad pRel).res = Except.error PErr.computationError ∧
        (processImage envNoGrad pRel).writes = [] ∧
        (gradcamEndpoint envNoGrad (some pRel)).resp =
          Resp.serverError PErr.computationError ∧
        (gradcamEndpoint envNoGrad (some pRel)).writes = []) :=
  ⟨by decide, rfl, rfl,
    claimC5_unset_gradient_capture_fails envNoGrad pRel imgA (by decide) rfl rfl⟩

/-- C6: a successful request writes exactly one rendered image file, at the
deterministic path `output/{file_class}_{file_name}`; the group segment is
the parent-directory component and the basename the final component of the
source image path (whenever that path contains a separator, prepending
`'..'` does not change them).  The path depends only on the request path, so
a repeated request writes the same file again (overwrites) rather than a new
one. -/
theorem claimC6_single_write_deterministic_name {α : Type} {C h w : ℕ}
    (E : Env α C h w) (p : Path) (img : OImage) (G : T3 C h w)
    (hread : E.readImage (joinParent p) = some img)
    (hG : E.grad (E.preprocess img) (pyArgmax (E.logits (E.preprocess img))) = some G)
    (hs : '/' ∈ p) :
    (processImage E p).writes.map Prod.fst = [outputFilepath p] ∧
    outputFilepath p = posixJoin outputDir (fileClass p ++ '_' :: fileName p) ∧
    fileClass p = (pySplit p).getD ((pySplit p).length - 2) [] ∧
    fileName p = (pySplit p).getLastD [] := by
  refine ⟨by rw [processImage_ok E p img G hread hG]; rfl, rfl, ?_, ?_⟩
  · cases habs : isAbs p
    · rw [fileClass, pySplit_joinParent_rel habs]
      have h2 := two_le_length_pySplit hs
      rcases Nat.exists_eq_add_of_le h2 with ⟨k, hk⟩
      rw [List.length_cons, hk]
      have hidx : 2 + k + 1 - 2 = k + 1 := by omega
      have hidx2 : 2 + k - 2 = k := by omega
      rw [hidx, hidx2, List.getD_cons_succ]
    · rw [fileClass, joinParent_abs habs]
  · cases habs : isAbs p
    · rw [fileName, pySplit_joinParent_rel habs]
      cases hps : pySplit p with
      | nil => exact absurd hps (pySplit_ne_nil p)
      | cons a as => simp [List.getLastD_cons]
    · rw [fileName, joinParent_abs habs]

/-- C6 witness: for the request path `images/human/50.jpg` in the concrete
environment, exactly the file `output/human_50.jpg` is written, and group and
basename come from the source path's components. -/
theorem claimC6_witness :
    envOk.readImage (joinParent pRel) = some imgA ∧
      envOk.grad (envOk.preprocess imgA)
        (pyArgmax (envOk.logits (envOk.preprocess imgA))) = some tOnes ∧
      '/' ∈ pRel ∧
      ((processImage envOk pRel).writes.map Prod.fst = [outputFilepath pRel] ∧
        outputFilepath pRel = posixJoin outputDir (fileClass pRel ++ '_' :: fileName pRel) ∧
        fileClass pRel = (pySplit pRel).getD ((pySplit pRel).length - 2) [] ∧
        fileName pRel = (pySplit pRel).getLastD []) :=
  ⟨rfl, rfl, by decide,
    claimC6_single_write_deterministic_name envOk pRel imgA tOnes rfl rfl (by decide)⟩

/-- C7: the overlay renderer's output image has exactly the pixel dimensions
of the original input image, for any input resolution: the heatmap is resized
to the original's actual width and height and the blend is taken over the
original's extent. -/
theorem claimC7_overlay_preserves_dimensions (orig : OImage) (hm : HMap) (alpha : ℚ) :
    (heatmapOnImage orig hm alpha).H = orig.H ∧
    (heatmapOnImage orig hm alpha).W = orig.W ∧
    (cvResize hm (orig.W, orig.H)).H = orig.H ∧
    (cvResize hm (orig.W, orig.H)).W = orig.W :=
  ⟨rfl, rfl, rfl, rfl⟩

/-- C8: when the image reference cannot be resolved, the request fails with
an input error, the endpoint reports an error to the caller, and no output
file is written. -/
theorem claimC8_unreachable_image_error_no_write {α : Type} {C h w : ℕ}
    (E : Env α C h w) (p : Path)
    (hp : p ≠ [])
    (hread : E.readImage (joinParent p) = none) :
    (processImage E p).res = Except.error PErr.inputError ∧
    (processImage E p).writes = [] ∧
    (gradcamEndpoint E (some p)).resp = Resp.serverError PErr.inputError ∧
    (gradcamEndpoint E (some p)).writes = [] := by
  have hpi := processImage_read_none E p hread
  exact ⟨by rw [hpi], by rw [hpi],
    by rw [gradcamEndpoint_some E hp, hpi],
    by rw [gradcamEndpoint_some E hp, hpi]⟩

/-- C8 witness: in the concrete environment where no path resolves, the
request on `images/human/50.jpg` errors and writes nothing. -/
theorem claimC8_witness :
    pRel ≠ [] ∧
      envNoImg.readImage (joinParent pRel) = none ∧
      ((processImage envNoImg pRel).res = Except.error PErr.inputError ∧
        (processImage envNoImg pRel).writes = [] ∧
        (gradcamEndpoint envNoImg (some pRel)).resp = Resp.serverError PErr.inputError ∧
        (gradcamEndpoint envNoImg (some pRel)).writes = []) :=
  ⟨by decide, rfl,
    claimC8_unreachable_image_error_no_write envNoImg pRel (by decide) rfl⟩

/-- C9: the map builder is idempotent — a second GradCAM invocation on the
same input, target and model, starting from the capture state the first one
left behind, produces exactly the same class-activation map. -/
theorem claimC9_map_builder_idempotent {α : Type} {C h w : ℕ} (E : Env α C h w)
    (st : Capture C h w) (x : α) (targetClass : Option (Fin 2)) :
    (gradCamCall E (gradCamCall E st x targetClass).capture x targetClass).cam =
      (gradCamCall E st x targetClass).cam := by
  cases hg : E.grad x (targetClass.getD (pyArgmax (E.logits x))) with
  | none => simp [gradCamCall, hg]
  | some g => simp [gradCamCall, hg]

/-- C10 counterexample: an absolute image reference is *not* prefixed with
the parent-directory segment `'..'` before being opened — `os.path.join`
discards the `'..'` for an absolute second component, and the pipeline opens
the path unchanged. -/
theorem claimC10_counterexample :
    joinParent pAbs = pAbs ∧
    joinParent pAbs ≠ '.' :: '.' :: '/' :: pAbs ∧
    (processImage envNoImg pAbs).reads = [pAbs] := by decide

/-- C10 amended: the image reference is joined with `'..'` under POSIX join
semantics — a relative reference is prefixed with `'../'`, while an absolute
reference is opened as-is — the pipeline opens exactly that joined path, and
the group/basename for the output filename are the second-to-last and last
`'/'`-separated components of the joined path (which always has at least two
components). -/
theorem claimC10_amended_join_semantics {α : Type} {C h w : ℕ}
    (E : Env α C h w) (p : Path) :
    (processImage E p).reads = [joinParent p] ∧
    joinParent p = (if isAbs p then p else '.' :: '.' :: '/' :: p) ∧
    outputFilename p = fileClass p ++ '_' :: fileName p ∧
    fileClass p = (pySplit (joinParent p)).getD ((pySplit (joinParent p)).length - 2) [] ∧
    2 ≤ (pySplit (joinParent p)).length ∧
    fileName p = (pySplit (joinParent p)).getLastD [] := by
  refine ⟨?_, ?_, rfl, rfl, two_le_length_pySplit_joinParent p, rfl⟩
  · cases hread : E.readImage (joinParent p) with
    | none => rw [processImage_read_none E p hread]
    | some img =>
      cases hG : E.grad (E.preprocess img) (pyArgmax (E.logits (E.preprocess img))) with
      | none => rw [processImage_grad_unset E p img hread hG]
      | some G => rw [processImage_ok E p img G hread hG]
  · cases habs : isAbs p
    · rw [joinParent_rel habs]
      simp
    · rw [joinParent_abs habs]
      simp

end GradCamApp
